import Mathlib

/-!
Verification development for the matter-management backend.

The definitions below are shallow embeddings of the TypeScript source:
timestamps and durations are modelled as Int milliseconds, nullable
columns as Option, fallible paths as Except, and the relational store as
explicit lists of rows.  Each section names the source file and function
it embeds.
-/

namespace Matter

/-- SLA verdict, from the SLAStatus union type in types.ts:
"In Progress" or "Met" or "Breached". -/
inductive SLAStatus where
  | inProgress
  | met
  | breached
deriving DecidableEq, Repr

/-- Embeds formatDuration from
backend/src/ticketing/matter/service/cycle_time_service.ts (detail path).
Null or negative input renders "N/A"; otherwise milliseconds are
decomposed by integer division and parts are collected with independent
if-tests: days when positive, remaining hours when positive, remaining
minutes when positive and days are zero; if no part was collected the
whole seconds count is shown; an in-progress value is prefixed. -/
def formatDuration (durationMs : Option Int) (isInProgress : Bool) : String :=
  match durationMs with
  | none => "N/A"
  | some ms =>
    if ms < 0 then "N/A"
    else
      let seconds : Nat := ms.toNat / 1000
      let minutes : Nat := seconds / 60
      let hours : Nat := minutes / 60
      let days : Nat := hours / 24
      let remainingHours : Nat := hours % 24
      let remainingMinutes : Nat := minutes % 60
      let parts : List String :=
        (if days > 0 then [toString days ++ "d"] else []) ++
        (if remainingHours > 0 then [toString remainingHours ++ "h"] else []) ++
        (if remainingMinutes > 0 && days == 0 then [toString remainingMinutes ++ "m"] else [])
      let parts : List String :=
        if parts.isEmpty then [toString seconds ++ "s"] else parts
      let formatted := String.intercalate " " parts
      if isInProgress then "In Progress: " ++ formatted else formatted

namespace MatterRepo

/-- Embeds MatterRepo.formatDuration (list path), the variant with a
years branch: years and remaining days when a year or more, else days
and remaining hours, else hours and remaining minutes, else minutes,
else remaining seconds; same N/A guard and in-progress prefix. -/
def formatDuration (durationMs : Option Int) (isInProgress : Bool) : String :=
  match durationMs with
  | none => "N/A"
  | some ms =>
    if ms < 0 then "N/A"
    else
      let seconds : Nat := ms.toNat / 1000
      let minutes : Nat := seconds / 60
      let hours : Nat := minutes / 60
      let days : Nat := hours / 24
      let years : Nat := days / 365
      let remainingDays : Nat := days % 365
      let remainingHours : Nat := hours % 24
      let remainingMinutes : Nat := minutes % 60
      let remainingSeconds : Nat := seconds % 60
      let parts : List String :=
        if years > 0 then
          [toString years ++ "y"] ++
            (if remainingDays > 0 then [toString remainingDays ++ "d"] else [])
        else if days > 0 then
          [toString days ++ "d"] ++
            (if remainingHours > 0 then [toString remainingHours ++ "h"] else [])
        else if hours > 0 then
          [toString hours ++ "h"] ++
            (if remainingMinutes > 0 then [toString remainingMinutes ++ "m"] else [])
        else if minutes > 0 then
          [toString minutes ++ "m"]
        else
          [toString remainingSeconds ++ "s"]
      let formatted := String.intercalate " " parts
      if isInProgress then "In Progress: " ++ formatted else formatted

end MatterRepo

/-- Embeds determineSLAStatus from cycle_time_service.ts: in-progress
wins, a null duration also yields the in-progress verdict, otherwise
the duration is compared inclusively against the threshold. -/
def determineSLAStatus (resolutionTimeMs : Option Int) (isInProgress : Bool)
    (slaThresholdMs : Int) : SLAStatus :=
  if isInProgress then .inProgress
  else
    match resolutionTimeMs with
    | none => .inProgress
    | some ms => if ms ≤ slaThresholdMs then .met else .breached

/-- Embeds calculateResolutionTime from cycle_time_service.ts.  Dates
are Int milliseconds since epoch.  Note the function never consults the
in-progress flag: with startedAt present and completedAt absent it
always returns currentTime minus startedAt. -/
def calculateResolutionTime (startedAt completedAt : Option Int)
    (currentTime : Int) : Option Int :=
  match startedAt with
  | none => none
  | some s =>
    match completedAt with
    | some c => some (c - s)
    | none => some (currentTime - s)

/-- Output record of the per-item block of
CycleTimeService.calculateCycleTimesAndSLA (the CycleTime shape plus
the sla verdict). -/
structure CycleOut where
  resolutionTimeMs : Option Int
  resolutionTimeFormatted : String
  isInProgress : Bool
  startedAt : Option Int
  completedAt : Option Int
  sla : SLAStatus
deriving DecidableEq, Repr

/-- Embeds the loop body of CycleTimeService.calculateCycleTimesAndSLA:
startedAt and completedAt come from the aggregated transition-log row
for the ticket (absent row gives null for both), isInProgress is
currentStatusGroupName differing from "Done", and the three pure
helpers produce the duration, its rendering and the verdict. -/
def cycleItemFor (startedAt completedAt : Option Int)
    (currentStatusGroupName : Option String) (now slaThresholdMs : Int) : CycleOut :=
  let isInProgress := currentStatusGroupName != some "Done"
  let resolutionTimeMs := calculateResolutionTime startedAt completedAt now
  { resolutionTimeMs := resolutionTimeMs
    resolutionTimeFormatted := formatDuration resolutionTimeMs isInProgress
    isInProgress := isInProgress
    startedAt := startedAt
    completedAt := completedAt
    sla := determineSLAStatus resolutionTimeMs isInProgress slaThresholdMs }

/-! ### Transition log aggregation (cycle_time_service.ts batched query)

The SQL groups ticketing_cycle_time_histories by ticket, inner-joining
to_status_id through status options to status groups, and takes
MIN(transitioned_at) overall as started_at and MIN(transitioned_at)
FILTER (WHERE group name is "Done") as completed_at. -/

/-- One row of ticketing_cycle_time_histories that matters to the
aggregation: the ticket, the destination status and the timestamp. -/
structure Transition where
  ticketId : String
  statusFieldId : String
  fromStatusId : Option String
  toStatusId : String
  transitionedAt : Int
deriving DecidableEq, Repr

/-- Catalog rows: ticketing_field_status_options (option id, group id)
and ticketing_field_status_groups (group id, name), as association
lists, modelling the two inner joins. -/
structure StatusCatalog where
  options : List (String × String)
  groups : List (String × String)
deriving Repr

/-- Group name reached from a destination status through the two inner
joins; none when either join finds no row. -/
def StatusCatalog.groupNameOf (cat : StatusCatalog) (statusId : String) : Option String :=
  match cat.options.lookup statusId with
  | none => none
  | some groupId => cat.groups.lookup groupId

/-- MIN aggregate over a list of timestamps, none on the empty list. -/
def minTs : List Int → Option Int
  | [] => none
  | t :: ts =>
    match minTs ts with
    | none => some t
    | some m => some (min t m)

/-- Rows of the log surviving the inner joins for one ticket
(the GROUP BY group of that ticket). -/
def logRowsFor (cat : StatusCatalog) (log : List Transition) (tid : String) :
    List Transition :=
  log.filter (fun t => t.ticketId == tid && (cat.groupNameOf t.toStatusId).isSome)

/-- started_at for a ticket: MIN(transitioned_at) over its joined rows. -/
def startedAtOf (cat : StatusCatalog) (log : List Transition) (tid : String) : Option Int :=
  minTs ((logRowsFor cat log tid).map (·.transitionedAt))

/-- Rows of the log for one ticket whose destination status lies in the
Done group (the FILTER clause of the completed_at aggregate). -/
def doneRowsFor (cat : StatusCatalog) (log : List Transition) (tid : String) :
    List Transition :=
  log.filter (fun t => t.ticketId == tid && cat.groupNameOf t.toStatusId == some "Done")

/-- completed_at for a ticket: MIN(transitioned_at) FILTER (WHERE the
destination status group is named "Done"). -/
def completedAtOf (cat : StatusCatalog) (log : List Transition) (tid : String) : Option Int :=
  minTs ((doneRowsFor cat log tid).map (·.transitionedAt))

/-! ### Query compiler, sort (MatterRepo.buildOrderByClause)

The ORDER BY strings built by the source are modelled as structured key
lists: each comma-separated term becomes one SortKey carrying the column
expression it orders by, the direction, and whether the source wrote an
explicit NULLS LAST on it. -/

/-- Sort direction, the sortOrder input. -/
inductive Dir where
  | asc
  | desc
deriving DecidableEq, Repr

/-- One ORDER BY expression of the source, atomically: the built-in
timestamp columns, the resolution-time and SLA-rank CASE expressions,
and the per-type value columns (text is the COALESCE of string_value
and text_value; user, select and status order by joined catalog
columns). -/
inductive SortCol where
  | createdAt
  | updatedAt
  | resolutionTime
  | slaRank
  | numberValue
  | textCoalesce
  | dateValue
  | booleanValue
  | currencyAmount
  | userLastName
  | userFirstName
  | selectSeq
  | selectLabel
  | statusGroupSeq
  | statusSeq
  | statusLabel
deriving DecidableEq, Repr

/-- One ORDER BY term: column expression, direction, and whether the
source appended an explicit NULLS LAST to it. -/
structure SortKey where
  col : SortCol
  dir : Dir
  nullsLast : Bool
deriving DecidableEq, Repr

/-- Field catalog row as returned by getFieldInfo (ticketing_fields):
id and field_type.  The process-lifetime cache of getFieldInfo is
transparent to the result and is not modelled. -/
structure FieldInfo where
  id : String
  fieldType : String
deriving DecidableEq, Repr

/-- Hex digit test for the UUID guard. -/
def isHexDigit (c : Char) : Bool :=
  c.isDigit || (('a' ≤ c && c ≤ 'f') || ('A' ≤ c && c ≤ 'F'))

/-- Embeds the uuidRegex test of buildOrderByClause: 8-4-4-4-12 hex
groups separated by dashes, case-insensitive. -/
def isValidUuid (s : String) : Bool :=
  let cs := s.toList
  cs.length == 36 &&
    (List.range 36).all (fun i =>
      if i == 8 || i == 13 || i == 18 || i == 23 then cs.getD i ' ' == '-'
      else isHexDigit (cs.getD i ' '))

/-- Embeds MatterRepo.buildOrderByClause.  First component: the ORDER BY
terms in order.  Second component: warning log entries emitted on the
way (logger.warn calls).  The built-in keys created_at and updated_at
return a single term; Resolution Time and SLA return their CASE
expression followed by the created_at tie-break; any other key resolves
through the field catalog and falls back to created_at when the name is
unknown, the stored field id fails the UUID guard (with a warning), or
the field type is unrecognized; each per-type value term carries an
explicit NULLS LAST. -/
def buildOrderByClause (catalog : List (String × FieldInfo)) (sortBy : String)
    (dir : Dir) : List SortKey × List String :=
  if sortBy == "created_at" then ([⟨.createdAt, dir, false⟩], [])
  else if sortBy == "updated_at" then ([⟨.updatedAt, dir, false⟩], [])
  else if sortBy == "Resolution Time" then
    ([⟨.resolutionTime, dir, true⟩, ⟨.createdAt, dir, false⟩], [])
  else if sortBy == "SLA" then
    ([⟨.slaRank, dir, false⟩, ⟨.createdAt, dir, false⟩], [])
  else
    match catalog.lookup sortBy with
    | none => ([⟨.createdAt, dir, false⟩], [])
    | some fi =>
      if !isValidUuid fi.id then
        ([⟨.createdAt, dir, false⟩], ["Invalid field ID format"])
      else
        match fi.fieldType with
        | "number" => ([⟨.numberValue, dir, true⟩, ⟨.createdAt, dir, false⟩], [])
        | "text" => ([⟨.textCoalesce, dir, true⟩, ⟨.createdAt, dir, false⟩], [])
        | "date" => ([⟨.dateValue, dir, true⟩, ⟨.createdAt, dir, false⟩], [])
        | "boolean" => ([⟨.booleanValue, dir, true⟩, ⟨.createdAt, dir, false⟩], [])
        | "currency" => ([⟨.currencyAmount, dir, true⟩, ⟨.createdAt, dir, false⟩], [])
        | "user" =>
          ([⟨.userLastName, dir, true⟩, ⟨.userFirstName, dir, true⟩,
            ⟨.createdAt, dir, false⟩], [])
        | "select" =>
          ([⟨.selectSeq, dir, true⟩, ⟨.selectLabel, dir, true⟩,
            ⟨.createdAt, dir, false⟩], [])
        | "status" =>
          ([⟨.statusGroupSeq, dir, true⟩, ⟨.statusSeq, dir, true⟩,
            ⟨.statusLabel, dir, true⟩, ⟨.createdAt, dir, false⟩], [])
        | _ => ([⟨.createdAt, dir, false⟩], [])

/-! ### ORDER BY semantics

SQL evaluation of a key list over rows: per key, non-null values are
compared by the column type and the order is flipped under DESC; a null
against a non-null is placed by the NULLS policy: explicit NULLS LAST
when the source wrote it, else the direction-dependent PostgreSQL
default (ASC puts nulls last, DESC puts nulls first). -/

/-- A value an ORDER BY expression can take on a row. -/
inductive Val where
  | int (i : Int)
  | str (s : String)
  | bool (b : Bool)
deriving DecidableEq, Repr

/-- Comparison of two same-typed SQL values: numeric order, string
order, false before true.  Mixed types cannot arise on one column and
compare as equal. -/
def cmpVal : Val → Val → Ordering
  | .int a, .int b => compare a b
  | .str a, .str b => compare a b
  | .bool a, .bool b =>
    match a, b with
    | false, true => .lt
    | true, false => .gt
    | _, _ => .eq
  | _, _ => .eq

/-- A row as seen by the ORDER BY: the never-null matter timestamps and
the nullable value of every other column expression. -/
structure Row where
  createdAt : Int
  updatedAt : Int
  vals : SortCol → Option Val

/-- Value of a column expression on a row; the matter timestamps are
always present. -/
def Row.colVal (r : Row) : SortCol → Option Val
  | .createdAt => some (.int r.createdAt)
  | .updatedAt => some (.int r.updatedAt)
  | c => r.vals c

/-- Effective nulls-last policy of a key: explicit NULLS LAST, or the
PostgreSQL default which is nulls-last exactly under ASC. -/
def effNullsLast (k : SortKey) : Bool :=
  k.nullsLast || k.dir == Dir.asc

/-- SQL comparison of two rows under one ORDER BY term. -/
def cmpKey (k : SortKey) (a b : Row) : Ordering :=
  match a.colVal k.col, b.colVal k.col with
  | some va, some vb =>
    let o := cmpVal va vb
    if k.dir == Dir.desc then o.swap else o
  | none, none => .eq
  | some _, none => if effNullsLast k then .lt else .gt
  | none, some _ => if effNullsLast k then .gt else .lt

/-- Lexicographic SQL comparison under an ORDER BY key list. -/
def cmpKeys : List SortKey → Row → Row → Ordering
  | [], _, _ => .eq
  | k :: ks, a, b =>
    match cmpKey k a b with
    | .eq => cmpKeys ks a b
    | o => o

/-- The leading ORDER BY column each recognized field type sorts by
(statement helper for the NULLS LAST invariant). -/
def primaryCol : String → SortCol
  | "number" => .numberValue
  | "text" => .textCoalesce
  | "date" => .dateValue
  | "boolean" => .booleanValue
  | "currency" => .currencyAmount
  | "user" => .userLastName
  | "select" => .selectSeq
  | "status" => .statusGroupSeq
  | _ => .createdAt

/-! ### Request validation (validation.ts, getMattersQuerySchema.sortBy) -/

/-- The SORTABLE_FIELDS whitelist of validation.ts. -/
def SORTABLE_FIELDS : List String :=
  ["subject", "Case Number", "Status", "Assigned To", "Priority",
   "Contract Value", "Due Date", "Urgent", "Resolution Time", "SLA",
   "created_at", "updated_at"]

/-- Embeds the sortBy member of getMattersQuerySchema: an absent key
defaults to created_at; a present key must be in SORTABLE_FIELDS or the
request fails validation with the message "Invalid sort field". -/
def parseSortBy : Option String → Except String String
  | none => .ok "created_at"
  | some s => if SORTABLE_FIELDS.contains s then .ok s else .error "Invalid sort field"

/-! ### The relational store

Rows of the tables the repository touches, modelled as lists. -/

/-- Row of ticketing_ticket. -/
structure TicketRow where
  id : String
  boardId : String
  createdAt : Int
  updatedAt : Int
deriving DecidableEq, Repr

/-- Row of ticketing_fields. -/
structure FieldRow where
  id : String
  name : String
  fieldType : String
  deletedAt : Option Int
deriving DecidableEq, Repr

/-- Row of ticketing_ticket_field_value: one nullable slot per declared
type, at most one row per (ticket, field) pair. -/
structure ValueRow where
  ticketId : String
  ticketFieldId : String
  textValue : Option String
  stringValue : Option String
  numberValue : Option Int
  dateValue : Option String
  booleanValue : Option Bool
  currencyAmount : Option Int
  currencyCode : Option String
  userValue : Option Int
  selectRef : Option String
  statusRef : Option String
  createdBy : Option Int
  updatedBy : Option Int
deriving DecidableEq, Repr

/-- Row of users. -/
structure UserRow where
  id : Int
  email : String
  firstName : String
  lastName : String
deriving DecidableEq, Repr

/-- Row of ticketing_field_options (select options). -/
structure OptionRow where
  id : String
  label : String
  sequence : Int
deriving DecidableEq, Repr

/-- Row of ticketing_field_status_options. -/
structure StatusOptionRow where
  id : String
  label : String
  sequence : Int
  groupId : String
deriving DecidableEq, Repr

/-- Row of ticketing_field_status_groups. -/
structure GroupRow where
  id : String
  name : String
  sequence : Int
deriving DecidableEq, Repr

/-- The backing store. -/
structure Store where
  tickets : List TicketRow
  fields : List FieldRow
  values : List ValueRow
  users : List UserRow
  options : List OptionRow
  statusOptions : List StatusOptionRow
  statusGroups : List GroupRow
  transitions : List Transition
deriving Repr

/-- The status-option and status-group joins of the store, in the shape
the transition aggregation uses. -/
def Store.statusCat (st : Store) : StatusCatalog :=
  ⟨st.statusOptions.map (fun o => (o.id, o.groupId)),
   st.statusGroups.map (fun g => (g.id, g.name))⟩

/-- field_type of a value row through the join on ticketing_fields. -/
def Store.fieldTypeOf (st : Store) (fieldId : String) : Option String :=
  (st.fields.find? (fun f => f.id == fieldId)).map (·.fieldType)

/-- The current_status join of getCycleTimeJoins: the status group name
of the ticket value for the non-deleted field named "Status". -/
def Store.currentStatusGroupName (st : Store) (tid : String) : Option String :=
  match st.values.find? (fun v =>
      v.ticketId == tid &&
      (st.fields.any (fun f =>
        f.id == v.ticketFieldId && f.name == "Status" && f.deletedAt.isNone))) with
  | none => none
  | some v =>
    match v.statusRef with
    | none => none
    | some sid => st.statusCat.groupNameOf sid

/-! ### Query compiler, search (MatterRepo.buildSearchCondition)

The source returns an empty condition for an absent or blank term and
otherwise one parameterized SQL fragment of seven OR-ed EXISTS
subqueries; the fragment is modelled as the active (trimmed) term and
its semantics as a per-ticket Boolean predicate. -/

/-- Whitespace as the JavaScript trim sees it (the ASCII core of the
set; the exotic Unicode spaces are irrelevant here). -/
def isJsWhitespace (c : Char) : Bool :=
  c == ' ' || c == '\t' || c == '\n' || c == '\r'

/-- The JavaScript String.prototype.trim: strip leading and trailing
whitespace. -/
def jsTrim (s : String) : String :=
  ⟨((s.toList.dropWhile isJsWhitespace).reverse.dropWhile isJsWhitespace).reverse⟩

/-- Embeds the guard of buildSearchCondition: an absent or blank term
produces the empty condition (match-all), otherwise the trimmed term is
bound as the search parameter. -/
def buildSearchCondition (search : Option String) : Option String :=
  match search with
  | none => none
  | some s => if jsTrim s == "" then none else some (jsTrim s)

/-- Case-sensitive substring test on character lists. -/
def containsSub (needle : List Char) : List Char → Bool
  | [] => needle.isEmpty
  | c :: t => needle.isPrefixOf (c :: t) || containsSub needle t

/-- ILIKE with wildcards on both sides: case-insensitive substring. -/
def ilike (hay term : String) : Bool :=
  containsSub term.toLower.toList hay.toLower.toList

/-- ILIKE applied to a nullable column: NULL never matches. -/
def ilikeOpt (hay : Option String) (term : String) : Bool :=
  match hay with
  | none => false
  | some h => ilike h term

/-- The SLA-status CASE expression of getSlaStatusSql for one ticket:
a current status group other than Done gives "In Progress"; else with
both aggregates present the duration is compared to the threshold; else
"In Progress".  A missing current status group makes the first WHEN
evaluate to SQL NULL and falls through. -/
def slaStatusSqlOf (st : Store) (thr : Int) (tid : String) : String :=
  let g := st.currentStatusGroupName tid
  if (g.map (fun n => n != "Done")).getD false then "In Progress"
  else
    match completedAtOf st.statusCat st.transitions tid,
        startedAtOf st.statusCat st.transitions tid with
    | some d, some f => if d - f ≤ thr then "Met" else "Breached"
    | _, _ => "In Progress"

/-- Embeds the seven OR-ed EXISTS branches of the search condition for
one ticket: text slots, the text rendering of number values, status
labels, user first, last and concatenated names, the text rendering of
currency amounts, select labels, and the computed SLA status string. -/
def matterMatchesSearch (st : Store) (thr : Int) (tid : String) (term : String) : Bool :=
  (st.values.any (fun v =>
    v.ticketId == tid && st.fieldTypeOf v.ticketFieldId == some "text" &&
      (ilikeOpt v.stringValue term || ilikeOpt v.textValue term))) ||
  (st.values.any (fun v =>
    v.ticketId == tid && st.fieldTypeOf v.ticketFieldId == some "number" &&
      ilikeOpt (v.numberValue.map toString) term)) ||
  (st.values.any (fun v =>
    v.ticketId == tid && st.fieldTypeOf v.ticketFieldId == some "status" &&
      (match v.statusRef with
       | none => false
       | some sid =>
         ilikeOpt ((st.statusOptions.find? (fun o => o.id == sid)).map (·.label)) term))) ||
  (st.values.any (fun v =>
    v.ticketId == tid && st.fieldTypeOf v.ticketFieldId == some "user" &&
      (match v.userValue.bind (fun uid => st.users.find? (fun u => u.id == uid)) with
       | none => false
       | some u =>
         ilike u.firstName term || ilike u.lastName term ||
           ilike (u.firstName ++ " " ++ u.lastName) term))) ||
  (st.values.any (fun v =>
    v.ticketId == tid && st.fieldTypeOf v.ticketFieldId == some "currency" &&
      ilikeOpt (v.currencyAmount.map toString) term)) ||
  (st.values.any (fun v =>
    v.ticketId == tid && st.fieldTypeOf v.ticketFieldId == some "select" &&
      (match v.selectRef with
       | none => false
       | some sid =>
         ilikeOpt ((st.options.find? (fun o => o.id == sid)).map (·.label)) term))) ||
  ilike (slaStatusSqlOf st thr tid) term

/-- The WHERE clause of the count and page queries: 1=1 with the search
condition appended when one was built. -/
def rowPasses (st : Store) (thr : Int) (cond : Option String) (tid : String) : Bool :=
  match cond with
  | none => true
  | some term => matterMatchesSearch st thr tid term

/-- COUNT(DISTINCT tt.id) of the count query under a search input:
tickets passing the built condition. -/
def countMatters (st : Store) (thr : Int) (search : Option String) : Nat :=
  (st.tickets.filter (fun t => rowPasses st thr (buildSearchCondition search) t.id)).length

/-- Ids of the tickets passing the built condition, in store order: the
result set the page query draws from. -/
def matchingIds (st : Store) (thr : Int) (search : Option String) : List String :=
  (st.tickets.filter (fun t => rowPasses st thr (buildSearchCondition search) t.id)).map (·.id)

/-! ### Update and transition recorder (MatterRepo.updateMatterField)

The source wraps the work in BEGIN / COMMIT with ROLLBACK on any
thrown error.  Failures of the individual statements are injected
through an oracle indexed by statement order; BEGIN is statement 0.
ROLLBACK is modelled by returning the untouched input store. -/

/-- A value arriving in the update request body. -/
inductive JsVal where
  | str (s : String)
  | num (n : Int)
  | boolean (b : Bool)
  | date (d : String)
  | currency (amount : Int) (code : String)
  | null
deriving DecidableEq, Repr

/-- The field types the update switch recognizes; any other type hits
the default branch and throws. -/
def recognizedFieldTypes : List String :=
  ["text", "number", "date", "boolean", "currency", "user", "select", "status"]

/-- A write statement issued inside the transaction, with enough payload
to replay it. -/
inductive WriteOp where
  | insertTransition (t : Transition)
  | upsertValue (ticketId fieldId fieldType : String) (v : JsVal) (userId : Int)
  | bumpUpdatedAt (ticketId : String) (now : Int)
deriving DecidableEq, Repr

/-- Writes the request value into the one column the switch selected for
the field type, leaving every other slot of the row alone, and stamps
updated_by; a value whose shape does not fit the slot stores NULL (the
database cast is out of scope). -/
def setColumn (r : ValueRow) (fieldType : String) (v : JsVal) (userId : Int) : ValueRow :=
  let r := { r with updatedBy := some userId }
  match fieldType with
  | "text" => { r with textValue := match v with | .str s => some s | _ => none }
  | "number" => { r with numberValue := match v with | .num n => some n | _ => none }
  | "date" =>
    { r with dateValue := match v with | .date d => some d | .str s => some s | _ => none }
  | "boolean" => { r with booleanValue := match v with | .boolean b => some b | _ => none }
  | "currency" =>
    match v with
    | .currency a c => { r with currencyAmount := some a, currencyCode := some c }
    | _ => { r with currencyAmount := none, currencyCode := none }
  | "user" => { r with userValue := match v with | .num n => some n | _ => none }
  | "select" => { r with selectRef := match v with | .str s => some s | _ => none }
  | "status" => { r with statusRef := match v with | .str s => some s | _ => none }
  | _ => r

/-- A fresh value row for the INSERT arm of the upsert: every slot NULL,
created_by and updated_by stamped. -/
def emptyValueRow (tid fid : String) (userId : Int) : ValueRow :=
  ⟨tid, fid, none, none, none, none, none, none, none, none, none, none,
   some userId, some userId⟩

/-- The upsert statement: ON CONFLICT (ticket_id, ticket_field_id) the
selected column and updated_by are overwritten, otherwise a fresh row is
inserted with only that column set. -/
def upsertValueRow (st : Store) (tid fid fieldType : String) (v : JsVal)
    (userId : Int) : Store :=
  if st.values.any (fun r => r.ticketId == tid && r.ticketFieldId == fid) then
    { st with values := st.values.map (fun r =>
        if r.ticketId == tid && r.ticketFieldId == fid then
          setColumn r fieldType v userId
        else r) }
  else
    { st with values := st.values ++ [setColumn (emptyValueRow tid fid userId) fieldType v userId] }

/-- UPDATE ticketing_ticket SET updated_at = NOW() WHERE id matches. -/
def bumpTicket (st : Store) (tid : String) (now : Int) : Store :=
  { st with tickets := st.tickets.map (fun t =>
      if t.id == tid then { t with updatedAt := now } else t) }

/-- Replay of one recorded write against a store. -/
def applyWrite (st : Store) : WriteOp → Store
  | .insertTransition t => { st with transitions := st.transitions ++ [t] }
  | .upsertValue tid fid ft v uid => upsertValueRow st tid fid ft v uid
  | .bumpUpdatedAt tid now => bumpTicket st tid now

/-- Outcome of updateMatterField: the store after COMMIT or ROLLBACK,
the error if one was thrown, and the write statements issued inside the
transaction before the failure point (all of them on success). -/
structure UpdateResult where
  store : Store
  error : Option String
  writes : List WriteOp
deriving Repr

/-- Embeds MatterRepo.updateMatterField.  Statement order: BEGIN (0);
for a status field the current-value SELECT (1) and, when a row for the
pair exists, the transition INSERT (2); then the value upsert, the
matter timestamp UPDATE and COMMIT.  The switch rejects an unrecognized
field type before issuing any further statement; any failure rolls the
store back. -/
def updateMatterField (fail : Nat → Bool) (st : Store)
    (matterId fieldId fieldType : String) (value : JsVal) (userId : Int)
    (now : Int) : UpdateResult :=
  if fail 0 then ⟨st, some "storage error", []⟩
  else if !(recognizedFieldTypes.contains fieldType) then
    ⟨st, some ("Unsupported field type: " ++ fieldType), []⟩
  else
    let statusStep : Option (Store × List WriteOp × Nat) :=
      if fieldType == "status" then
        if fail 1 then none
        else
          match st.values.find? (fun r =>
              r.ticketId == matterId && r.ticketFieldId == fieldId) with
          | some row =>
            if fail 2 then none
            else
              let t : Transition :=
                ⟨matterId, fieldId, row.statusRef,
                 (match value with | .str s => s | _ => ""), now⟩
              some ({ st with transitions := st.transitions ++ [t] },
                [.insertTransition t], 3)
          | none => some (st, [], 2)
      else some (st, [], 1)
    match statusStep with
    | none => ⟨st, some "storage error", []⟩
    | some (st1, w1, qi) =>
      if fail qi then ⟨st, some "storage error", w1⟩
      else
        let st2 := upsertValueRow st1 matterId fieldId fieldType value userId
        let w2 := w1 ++ [.upsertValue matterId fieldId fieldType value userId]
        if fail (qi + 1) then ⟨st, some "storage error", w2⟩
        else
          let st3 := bumpTicket st2 matterId now
          let w3 := w2 ++ [.bumpUpdatedAt matterId now]
          if fail (qi + 2) then ⟨st, some "storage error", w3⟩
          else ⟨st3, none, w3⟩

/-! ### Field materializer and the detail path

getMatterFieldsBatch builds a map keyed by ticket id; a ticket with no
value rows gets no key.  The list path substitutes an empty object for
such tickets; the repository detail path passes the raw lookup through,
so its fields member can be undefined, modelled as none. -/

/-- A materialized field value as the switch of getMatterFieldsBatch
produces it. -/
inductive JsOut where
  | str (s : String)
  | num (n : Int)
  | boolean (b : Bool)
  | currencyV (amount : Int) (code : String)
  | userV (id : Int) (email firstName lastName displayName : String)
  | statusV (statusId : String) (groupName : String)
  | refV (id : String)
deriving DecidableEq, Repr

/-- One entry of the per-matter field map. -/
structure FieldOut where
  fieldId : String
  fieldName : String
  fieldType : String
  value : Option JsOut
  displayValue : Option String
deriving DecidableEq, Repr

/-- The per-row switch of getMatterFieldsBatch: extracts the slot named
by the field type and renders the display value (number and currency
locale grouping is modelled as plain decimal rendering). -/
def fieldOutOfRow (st : Store) (v : ValueRow) (f : FieldRow) : FieldOut :=
  match f.fieldType with
  | "text" =>
    let tv := match v.textValue with
      | some s => if s == "" then v.stringValue else some s
      | none => v.stringValue
    ⟨v.ticketFieldId, f.name, f.fieldType, tv.map .str, none⟩
  | "number" =>
    ⟨v.ticketFieldId, f.name, f.fieldType, v.numberValue.map .num,
     v.numberValue.map toString⟩
  | "date" =>
    ⟨v.ticketFieldId, f.name, f.fieldType, v.dateValue.map .str, v.dateValue⟩
  | "boolean" =>
    ⟨v.ticketFieldId, f.name, f.fieldType, v.booleanValue.map .boolean,
     some (if v.booleanValue.getD false then "✓" else "✗")⟩
  | "currency" =>
    match v.currencyAmount, v.currencyCode with
    | some a, some c =>
      ⟨v.ticketFieldId, f.name, f.fieldType, some (.currencyV a c),
       some (toString a ++ " " ++ c)⟩
    | _, _ => ⟨v.ticketFieldId, f.name, f.fieldType, none, none⟩
  | "user" =>
    match v.userValue.bind (fun uid => st.users.find? (fun u => u.id == uid)) with
    | some u =>
      ⟨v.ticketFieldId, f.name, f.fieldType,
       some (.userV u.id u.email u.firstName u.lastName
         (u.firstName ++ " " ++ u.lastName)),
       some (u.firstName ++ " " ++ u.lastName)⟩
    | none => ⟨v.ticketFieldId, f.name, f.fieldType, none, none⟩
  | "select" =>
    ⟨v.ticketFieldId, f.name, f.fieldType, v.selectRef.map .refV,
     v.selectRef.bind (fun sid =>
       (st.options.find? (fun o => o.id == sid)).map (·.label))⟩
  | "status" =>
    let label := v.statusRef.bind (fun sid =>
      (st.statusOptions.find? (fun o => o.id == sid)).map (·.label))
    let grp := v.statusRef.bind st.statusCat.groupNameOf
    let value : Option JsOut :=
      match v.statusRef, grp with
      | some sid, some g => some (.statusV sid g)
      | some sid, none => some (.refV sid)
      | none, _ => none
    ⟨v.ticketFieldId, f.name, f.fieldType, value, label⟩
  | _ => ⟨v.ticketFieldId, f.name, f.fieldType, none, none⟩

/-- Assignment into a JavaScript object modelled as an association
list: an existing key is overwritten in place, a new key is appended. -/
def setAssoc {α : Type} (m : List (String × α)) (k : String) (v : α) :
    List (String × α) :=
  if m.any (fun p => p.1 == k) then
    m.map (fun p => if p.1 == k then (k, v) else p)
  else m ++ [(k, v)]

/-- Embeds getMatterFieldsBatch: joins the value rows of the requested
tickets to their fields (inner join) and folds them into a map keyed by
ticket id then field name.  A ticket with no surviving row gets no
key. -/
def getMatterFieldsBatch (st : Store) (ticketIds : List String) :
    List (String × List (String × FieldOut)) :=
  (st.values.filter (fun v => ticketIds.contains v.ticketId)).foldl
    (fun acc v =>
      match st.fields.find? (fun f => f.id == v.ticketFieldId) with
      | none => acc
      | some f =>
        let cur := (acc.lookup v.ticketId).getD []
        setAssoc acc v.ticketId (setAssoc cur f.name (fieldOutOfRow st v f)))
    []

/-- The repository detail row: fields is the raw batch-map lookup and
can therefore be absent (undefined in the source). -/
structure RepoMatter where
  id : String
  boardId : String
  fields : Option (List (String × FieldOut))
  createdAt : Int
  updatedAt : Int
deriving Repr

/-- Embeds MatterRepo.getMatterById: none for an unknown id, otherwise
the ticket row with the batch-map lookup passed through unguarded. -/
def repoGetMatterById (st : Store) (matterId : String) : Option RepoMatter :=
  match st.tickets.find? (fun t => t.id == matterId) with
  | none => none
  | some t =>
    some ⟨t.id, t.boardId, (getMatterFieldsBatch st [matterId]).lookup matterId,
      t.createdAt, t.updatedAt⟩

/-- The detail response: matter plus cycle block. -/
structure ServiceMatter where
  id : String
  boardId : String
  fields : List (String × FieldOut)
  cycle : CycleOut
  createdAt : Int
  updatedAt : Int
deriving Repr

/-- Embeds MatterService.getMatterById: a missing matter is ok-none; on
a present matter the source reads fields["Status"] unconditionally, so
an undefined fields member raises a TypeError, modelled as error; else
the status group name is taken from a status-shaped object value and the
cycle block is computed from the transition log. -/
def serviceGetMatterById (st : Store) (thr now : Int) (matterId : String) :
    Except String (Option ServiceMatter) :=
  match repoGetMatterById st matterId with
  | none => .ok none
  | some m =>
    match m.fields with
    | none => .error "TypeError: cannot read properties of undefined"
    | some fm =>
      let statusGroupName : Option String :=
        match fm.lookup "Status" with
        | none => none
        | some f =>
          match f.value with
          | some (.statusV _ g) => some g
          | _ => none
      let started := startedAtOf st.statusCat st.transitions matterId
      let completed := completedAtOf st.statusCat st.transitions matterId
      .ok (some ⟨m.id, m.boardId, fm,
        cycleItemFor started completed statusGroupName now thr,
        m.createdAt, m.updatedAt⟩)

/-- The list-path substitution at the same spot: getMatters reads the
batch map with a fallback to the empty object. -/
def listFieldsFor (st : Store) (ticketIds : List String) (tid : String) :
    List (String × FieldOut) :=
  ((getMatterFieldsBatch st ticketIds).lookup tid).getD []

/-- Combiner of two optional minima (statement helper for the MIN
aggregate over a split list). -/
def omin : Option Int → Option Int → Option Int
  | none, o => o
  | some a, none => some a
  | some a, some b => some (min a b)

/-- Modelled from the claim wording of the duration formatting rule
(the refinement target): days, then remaining hours only when non-zero;
else hours, then remaining minutes only when non-zero; else minutes
alone; else seconds; ongoing durations prefixed; negative or null
renders "N/A". -/
def specFormatDuration (durationMs : Option Int) (isInProgress : Bool) : String :=
  match durationMs with
  | none => "N/A"
  | some ms =>
    if ms < 0 then "N/A"
    else
      let seconds : Nat := ms.toNat / 1000
      let minutes : Nat := seconds / 60
      let hours : Nat := minutes / 60
      let days : Nat := hours / 24
      let remainingHours : Nat := hours % 24
      let remainingMinutes : Nat := minutes % 60
      let parts : List String :=
        if days > 0 then
          [toString days ++ "d"] ++
            (if remainingHours > 0 then [toString remainingHours ++ "h"] else [])
        else if hours > 0 then
          [toString hours ++ "h"] ++
            (if remainingMinutes > 0 then [toString remainingMinutes ++ "m"] else [])
        else if minutes > 0 then
          [toString minutes ++ "m"]
        else
          [toString seconds ++ "s"]
      let formatted := String.intercalate " " parts
      if isInProgress then "In Progress: " ++ formatted else formatted

/-!
## Theorems
-/

/-- C1 (counterexample): an item whose transition row has started_at
but no completed_at while the current status group is Done — the matter
is not in progress — still gets a duration of now minus started_at and
a rendered string, not null and "N/A" as the claim requires for this
case. -/
theorem C1_counterexample :
    (cycleItemFor (some 0) none (some "Done") 1000 28800000).resolutionTimeMs
        = some 1000 ∧
      (cycleItemFor (some 0) none (some "Done") 1000 28800000).resolutionTimeFormatted
        = "1s" ∧
      (cycleItemFor (some 0) none (some "Done") 1000 28800000).resolutionTimeMs
        ≠ none := by
  refine ⟨rfl, ?_, by simp [cycleItemFor, calculateResolutionTime]⟩
  rfl

/-- C1 (amended): for every item of calculateCycleTimesAndSLA, with
both startedAt and completedAt present the duration is their
difference; with only startedAt present it is now minus startedAt
regardless of whether the matter is in progress; only with startedAt
absent is the duration null and the rendering "N/A". -/
theorem C1_resolution_amended (s c : Option Int) (g : Option String)
    (now thr : Int) :
    (cycleItemFor s c g now thr).resolutionTimeMs
        = (match s with
           | none => none
           | some sv => some (c.getD now - sv)) ∧
      (cycleItemFor s c g now thr).resolutionTimeFormatted
        = (match s with
           | none => "N/A"
           | some sv => formatDuration (some (c.getD now - sv)) (g != some "Done")) := by
  cases s <;> cases c <;>
    simp [cycleItemFor, calculateResolutionTime, formatDuration, Option.getD]

/-- C2: determineSLAStatus returns In Progress whenever the in-progress
flag is set, and also for a null duration when it is not; otherwise Met
exactly when the duration is present and at most the threshold, the
boundary being inclusive: exactly the threshold is Met, one millisecond
over is Breached. -/
theorem C2_determineSLAStatus (ms : Option Int) (thr : Int) :
    determineSLAStatus ms true thr = .inProgress ∧
      determineSLAStatus none false thr = .inProgress ∧
      (determineSLAStatus ms false thr = .met ↔ ∃ v, ms = some v ∧ v ≤ thr) ∧
      determineSLAStatus (some thr) false thr = .met ∧
      determineSLAStatus (some (thr + 1)) false thr = .breached := by
  refine ⟨rfl, rfl, ?_, by simp [determineSLAStatus], by simp [determineSLAStatus]⟩
  cases ms with
  | none => simp [determineSLAStatus]
  | some v =>
    by_cases h : v ≤ thr <;> simp [determineSLAStatus, h]

/-- C2 (witness): the boundary instance, threshold 8 and duration 8. -/
theorem C2_witness : determineSLAStatus (some 8) false 8 = .met :=
  (C2_determineSLAStatus (some 8) 8).2.2.2.1

/-- The detail-path formatter implements the claimed formatting rule on
every input. -/
theorem formatDuration_eq_spec (ms : Option Int) (b : Bool) :
    formatDuration ms b = specFormatDuration ms b := by
  cases ms with
  | none => rfl
  | some v =>
    by_cases hv : v < 0
    · simp [formatDuration, specFormatDuration, hv]
    · simp only [formatDuration, specFormatDuration, if_neg hv]
      generalize v.toNat = n
      by_cases hd : n / 1000 / 60 / 60 / 24 = 0
      · by_cases hh : n / 1000 / 60 / 60 = 0
        · by_cases hm : n / 1000 / 60 = 0
          · simp [hd, hh, hm]
          · have h1 : n / 1000 / 60 % 60 = n / 1000 / 60 := by omega
            simp [hd, hh, hm, h1, Nat.pos_of_ne_zero]
        · have h1 : n / 1000 / 60 / 60 % 24 = n / 1000 / 60 / 60 := by omega
          simp [hd, hh, h1, Nat.pos_of_ne_zero]
      · simp [hd, Nat.pos_of_ne_zero]

/-- C3 (counterexample): a duration of exactly 365 days renders as
"1y" on the list path but "365d" on the detail path, so the two rendered
strings do not follow one rule and a unit larger than days appears. -/
theorem C3_counterexample :
    MatterRepo.formatDuration (some 31536000000) false = "1y" ∧
      formatDuration (some 31536000000) false = "365d" ∧
      MatterRepo.formatDuration (some 31536000000) false
        ≠ formatDuration (some 31536000000) false := by
  exact ⟨rfl, rfl, by decide⟩

/-- C3 (amended): the detail-path formatter follows the claimed rule on
every input, and the list-path formatter agrees with that rule for
every duration under 365 days; at or beyond 365 days the list path
groups days into years instead. -/
theorem C3_formatting_amended (ms : Option Int) (b : Bool)
    (h : ∀ v, ms = some v → v < 31536000000) :
    formatDuration ms b = specFormatDuration ms b ∧
      MatterRepo.formatDuration ms b = specFormatDuration ms b := by
  refine ⟨formatDuration_eq_spec ms b, ?_⟩
  cases ms with
  | none => rfl
  | some v =>
    have hv : v < 31536000000 := h v rfl
    by_cases hneg : v < 0
    · simp [MatterRepo.formatDuration, specFormatDuration, hneg]
    · simp only [MatterRepo.formatDuration, specFormatDuration, if_neg hneg]
      have hn : v.toNat < 31536000000 := by omega
      generalize hgen : v.toNat = n at hn
      have hy : n / 1000 / 60 / 60 / 24 / 365 = 0 := by omega
      by_cases hd : n / 1000 / 60 / 60 / 24 = 0
      · by_cases hh : n / 1000 / 60 / 60 = 0
        · by_cases hm : n / 1000 / 60 = 0
          · have hs : n / 1000 % 60 = n / 1000 := by omega
            simp [hy, hd, hh, hm, hs]
          · simp [hy, hd, hh, hm, Nat.pos_of_ne_zero]
        · simp [hy, hd, hh, Nat.pos_of_ne_zero]
      · simp [hy, hd, Nat.pos_of_ne_zero]

/-- C3 (witness): at two and a half hours, both formatters agree with
the rule. -/
theorem C3_witness :
    formatDuration (some 9000000) true = specFormatDuration (some 9000000) true ∧
      MatterRepo.formatDuration (some 9000000) true
        = specFormatDuration (some 9000000) true :=
  C3_formatting_amended (some 9000000) true
    (fun v hv => by injection hv with h; omega)

/-- A key list comparing two rows as equal makes every one of its keys
compare them as equal. -/
theorem cmpKeys_eq_of_mem {a b : Row} :
    ∀ {ks : List SortKey}, cmpKeys ks a b = .eq → ∀ k ∈ ks, cmpKey k a b = .eq := by
  intro ks
  induction ks with
  | nil => intro _ k hk; simp at hk
  | cons k0 ks ih =>
    intro h k hk
    unfold cmpKeys at h
    cases hcc : cmpKey k0 a b <;> rw [hcc] at h
    · exact absurd h (by simp)
    · rcases List.mem_cons.mp hk with rfl | hk2
      · exact hcc
      · exact ih h k hk2
    · exact absurd h (by simp)

/-- A created_at key comparing two rows as equal forces equal creation
timestamps, whatever the direction. -/
theorem cmpKey_createdAt_eq {dir : Dir} {nl : Bool} {a b : Row}
    (h : cmpKey ⟨.createdAt, dir, nl⟩ a b = .eq) : a.createdAt = b.createdAt := by
  unfold cmpKey Row.colVal at h
  simp only [cmpVal] at h
  rcases dir <;> simp at h
  · exact compare_eq_iff_eq.mp h
  · have h2 : compare a.createdAt b.createdAt = .eq := by
      cases hc : compare a.createdAt b.createdAt
      · rw [hc] at h; exact absurd h (by decide)
      · rfl
      · rw [hc] at h; exact absurd h (by decide)
    exact compare_eq_iff_eq.mp h2

/-- A key list ending in a created_at tie-break determines the creation
timestamp on ties. -/
theorem tiebreak_semantics (ks : List SortKey) (dir : Dir) :
    (ks ++ [(⟨.createdAt, dir, false⟩ : SortKey)]).getLast?
        = some (⟨.createdAt, dir, false⟩ : SortKey) ∧
      ∀ a b : Row, cmpKeys (ks ++ [(⟨.createdAt, dir, false⟩ : SortKey)]) a b = .eq →
        a.createdAt = b.createdAt := by
  refine ⟨List.getLast?_concat _, ?_⟩
  intro a b heq
  exact cmpKey_createdAt_eq (cmpKeys_eq_of_mem heq _
    (List.mem_append.mpr (Or.inr (List.mem_singleton.mpr rfl))))

/-- C4: for every recognized field type and either direction, the
ordering built for a catalog-resolved sort field places a row with a
value for the leading sort column strictly before a row with no value
for any value column, and every value key of the clause carries an
explicit NULLS LAST. -/
theorem C4_nulls_last (catalog : List (String × FieldInfo)) (sortBy : String)
    (fi : FieldInfo) (ft : String) (dir : Dir) (a b : Row)
    (hbuiltin : sortBy ∉ ["created_at", "updated_at", "Resolution Time", "SLA"])
    (hlook : catalog.lookup sortBy = some fi)
    (huuid : isValidUuid fi.id = true)
    (htype : fi.fieldType = ft)
    (hft : ft ∈ ["number", "text", "date", "boolean", "currency",
      "user", "select", "status"])
    (ha : (a.vals (primaryCol ft)).isSome)
    (hb : ∀ c, b.vals c = none) :
    cmpKeys (buildOrderByClause catalog sortBy dir).1 a b = .lt ∧
      cmpKeys (buildOrderByClause catalog sortBy dir).1 b a = .gt ∧
      ∀ k ∈ (buildOrderByClause catalog sortBy dir).1,
        k.col ≠ .createdAt → k.nullsLast = true := by
  simp only [List.mem_cons, List.not_mem_nil] at hbuiltin
  push_neg at hbuiltin
  obtain ⟨h1, h2, h3, h4, _⟩ := hbuiltin
  obtain ⟨va, hva⟩ := Option.isSome_iff_exists.mp ha
  simp only [List.mem_cons, List.not_mem_nil, or_false] at hft
  rcases hft with h | h | h | h | h | h | h | h <;>
    rw [h] at htype <;>
    simp_all [buildOrderByClause, cmpKeys, cmpKey, Row.colVal, effNullsLast, primaryCol]

/-- C4 (witness): a number field sorted descending, one row with the
value 42 and one with no value at all. -/
theorem C4_witness :
    cmpKeys (buildOrderByClause
        [("Case Number", ⟨"11111111-1111-1111-1111-111111111111", "number"⟩)]
        "Case Number" .desc).1
      ⟨0, 0, fun c => if c == SortCol.numberValue then some (.int 42) else none⟩
      ⟨1, 1, fun _ => none⟩ = .lt :=
  (C4_nulls_last
    [("Case Number", ⟨"11111111-1111-1111-1111-111111111111", "number"⟩)]
    "Case Number" ⟨"11111111-1111-1111-1111-111111111111", "number"⟩ "number" .desc
    ⟨0, 0, fun c => if c == SortCol.numberValue then some (.int 42) else none⟩
    ⟨1, 1, fun _ => none⟩
    (by decide) rfl (by decide) rfl (by decide) (by decide) (fun c => rfl)).1

/-- C5 (counterexample): the accepted sort key updated_at produces an
ORDER BY with no created_at tie-break, and two distinct rows sharing an
update timestamp but differing in creation timestamp compare as equal,
so the ordering is not total on matters. -/
theorem C5_counterexample :
    ((buildOrderByClause [] "updated_at" .desc).1
        = [⟨.updatedAt, .desc, false⟩]) ∧
      cmpKeys (buildOrderByClause [] "updated_at" .desc).1
          ⟨0, 7, fun _ => none⟩ ⟨1, 7, fun _ => none⟩ = .eq ∧
      (⟨0, 7, fun _ => none⟩ : Row).createdAt
        ≠ (⟨1, 7, fun _ => none⟩ : Row).createdAt :=
  ⟨by simp [buildOrderByClause], by decide, by decide⟩

/-- C5 (amended): for the built-in keys Resolution Time and SLA and for
every catalog-resolved field of a recognized type, the clause ends with
a created_at tie-break in the requested direction, and rows the clause
cannot separate share their creation timestamp; the built-in keys
created_at and updated_at order by their single timestamp column with
no appended tie-break. -/
theorem C5_tiebreak_amended (catalog : List (String × FieldInfo)) (sortBy : String)
    (dir : Dir)
    (h : sortBy = "Resolution Time" ∨ sortBy = "SLA" ∨
      (sortBy ∉ ["created_at", "updated_at", "Resolution Time", "SLA"] ∧
        ∃ fi, catalog.lookup sortBy = some fi ∧ isValidUuid fi.id = true ∧
          fi.fieldType ∈ ["number", "text", "date", "boolean", "currency",
            "user", "select", "status"])) :
    ((buildOrderByClause catalog sortBy dir).1).getLast?
        = some ⟨.createdAt, dir, false⟩ ∧
      ∀ a b : Row, cmpKeys (buildOrderByClause catalog sortBy dir).1 a b = .eq →
        a.createdAt = b.createdAt := by
  rcases h with rfl | rfl | ⟨hnb, fi, hlook, huuid, hft⟩
  · have hcl : (buildOrderByClause catalog "Resolution Time" dir).1
        = [⟨.resolutionTime, dir, true⟩] ++ [⟨.createdAt, dir, false⟩] := by
      simp [buildOrderByClause]
    rw [hcl]
    exact tiebreak_semantics _ dir
  · have hcl : (buildOrderByClause catalog "SLA" dir).1
        = [⟨.slaRank, dir, false⟩] ++ [⟨.createdAt, dir, false⟩] := by
      simp [buildOrderByClause]
    rw [hcl]
    exact tiebreak_semantics _ dir
  · simp only [List.mem_cons, List.not_mem_nil] at hnb
    push_neg at hnb
    obtain ⟨h1, h2, h3, h4, _⟩ := hnb
    simp only [List.mem_cons, List.not_mem_nil, or_false] at hft
    have hstep : ∃ ks : List SortKey, (buildOrderByClause catalog sortBy dir).1
        = ks ++ [⟨.createdAt, dir, false⟩] := by
      rcases hft with h | h | h | h | h | h | h | h
      · exact ⟨[⟨.numberValue, dir, true⟩],
          by simp [buildOrderByClause, h1, h2, h3, h4, hlook, huuid, h]⟩
      · exact ⟨[⟨.textCoalesce, dir, true⟩],
          by simp [buildOrderByClause, h1, h2, h3, h4, hlook, huuid, h]⟩
      · exact ⟨[⟨.dateValue, dir, true⟩],
          by simp [buildOrderByClause, h1, h2, h3, h4, hlook, huuid, h]⟩
      · exact ⟨[⟨.booleanValue, dir, true⟩],
          by simp [buildOrderByClause, h1, h2, h3, h4, hlook, huuid, h]⟩
      · exact ⟨[⟨.currencyAmount, dir, true⟩],
          by simp [buildOrderByClause, h1, h2, h3, h4, hlook, huuid, h]⟩
      · exact ⟨[⟨.userLastName, dir, true⟩, ⟨.userFirstName, dir, true⟩],
          by simp [buildOrderByClause, h1, h2, h3, h4, hlook, huuid, h]⟩
      · exact ⟨[⟨.selectSeq, dir, true⟩, ⟨.selectLabel, dir, true⟩],
          by simp [buildOrderByClause, h1, h2, h3, h4, hlook, huuid, h]⟩
      · exact ⟨[⟨.statusGroupSeq, dir, true⟩, ⟨.statusSeq, dir, true⟩,
          ⟨.statusLabel, dir, true⟩],
          by simp [buildOrderByClause, h1, h2, h3, h4, hlook, huuid, h]⟩
    obtain ⟨ks, hcl⟩ := hstep
    rw [hcl]
    exact tiebreak_semantics ks dir

/-- C5 (witness): the SLA clause ends in the created_at tie-break. -/
theorem C5_witness :
    ((buildOrderByClause [] "SLA" Dir.asc).1).getLast?
      = some ⟨.createdAt, .asc, false⟩ :=
  (C5_tiebreak_amended [] "SLA" .asc (Or.inr (Or.inl rfl))).1

/-- The MIN aggregate of the empty group only. -/
theorem minTs_eq_none : ∀ {l : List Int}, minTs l = none ↔ l = [] := by
  intro l
  cases l with
  | nil => simp [minTs]
  | cons t ts =>
    simp only [minTs]
    cases minTs ts <;> simp

/-- The MIN aggregate returns an element of its group. -/
theorem minTs_mem : ∀ {l : List Int} {m : Int}, minTs l = some m → m ∈ l := by
  intro l
  induction l with
  | nil => intro m h; simp [minTs] at h
  | cons t ts ih =>
    intro m h
    unfold minTs at h
    cases hts : minTs ts <;> rw [hts] at h <;> injection h with h
    · subst h
      exact List.mem_cons_self _ _
    · next m' =>
      rcases le_total t m' with hle | hle
      · rw [min_eq_left hle] at h
        subst h
        exact List.mem_cons_self _ _
      · rw [min_eq_right hle] at h
        subst h
        exact List.mem_cons_of_mem _ (ih hts)

/-- The MIN aggregate bounds its group from below. -/
theorem minTs_le : ∀ {l : List Int} {m : Int}, minTs l = some m → ∀ x ∈ l, m ≤ x := by
  intro l
  induction l with
  | nil => intro m h; simp [minTs] at h
  | cons t ts ih =>
    intro m h x hx
    unfold minTs at h
    cases hts : minTs ts <;> rw [hts] at h <;> injection h with h
    · have hts0 : ts = [] := minTs_eq_none.mp hts
      subst hts0
      subst h
      rcases List.mem_singleton.mp hx with rfl
      exact le_refl _
    · next m' =>
      subst h
      rcases List.mem_cons.mp hx with rfl | hx2
      · exact min_le_left _ _
      · exact le_trans (min_le_right _ _) (ih hts _ hx2)

/-- The MIN aggregate splits over a concatenation. -/
theorem minTs_append (l1 l2 : List Int) :
    minTs (l1 ++ l2) = omin (minTs l1) (minTs l2) := by
  induction l1 with
  | nil => simp [minTs, omin]
  | cons t ts ih =>
    cases h1 : minTs ts <;> cases h2 : minTs l2 <;>
      simp_all [minTs, omin, min_assoc]

/-- C6: completed_at is the minimum timestamp among the transitions of
a matter whose destination status lies in the Done group, and once such
a transition exists, appending further transitions with later
timestamps — out of Done or back into it — leaves completed_at
unchanged. -/
theorem C6_completedAt_stable (cat : StatusCatalog) (log newLog : List Transition)
    (tid : String)
    (hdone : doneRowsFor cat log tid ≠ [])
    (hlater : ∀ t2 ∈ newLog, ∀ t1 ∈ log, t1.transitionedAt ≤ t2.transitionedAt) :
    (∃ m, completedAtOf cat log tid = some m ∧
        m ∈ (doneRowsFor cat log tid).map (·.transitionedAt) ∧
        ∀ x ∈ (doneRowsFor cat log tid).map (·.transitionedAt), m ≤ x) ∧
      completedAtOf cat (log ++ newLog) tid = completedAtOf cat log tid := by
  have hne : (doneRowsFor cat log tid).map (·.transitionedAt) ≠ [] := by
    simpa using hdone
  obtain ⟨m, hm⟩ : ∃ m,
      minTs ((doneRowsFor cat log tid).map (·.transitionedAt)) = some m := by
    cases h : minTs ((doneRowsFor cat log tid).map (·.transitionedAt)) with
    | none => exact absurd (minTs_eq_none.mp h) hne
    | some m => exact ⟨m, rfl⟩
  refine ⟨⟨m, hm, minTs_mem hm, minTs_le hm⟩, ?_⟩
  have hsplit : doneRowsFor cat (log ++ newLog) tid
      = doneRowsFor cat log tid ++ doneRowsFor cat newLog tid := by
    simp [doneRowsFor, List.filter_append]
  unfold completedAtOf
  rw [hsplit, List.map_append, minTs_append, hm]
  cases hB : minTs ((doneRowsFor cat newLog tid).map (·.transitionedAt)) with
  | none => rfl
  | some mb =>
    have hmb := minTs_mem hB
    obtain ⟨t2, ht2, rfl⟩ := List.mem_map.mp hmb
    have ht2' : t2 ∈ newLog := (List.mem_filter.mp ht2).1
    obtain ⟨t1, ht1, rfl⟩ := List.mem_map.mp (minTs_mem hm)
    have ht1' : t1 ∈ log := (List.mem_filter.mp ht1).1
    have hle : t1.transitionedAt ≤ t2.transitionedAt := hlater t2 ht2' t1 ht1'
    simp [omin, min_eq_left hle]

/-- C6 (witness): a matter entering Done at 20, then leaving Done at 30
and re-entering at 40 — completed_at stays the first entry. -/
theorem C6_witness :
    completedAtOf ⟨[("s1", "g1"), ("s2", "g2")], [("g1", "To Do"), ("g2", "Done")]⟩
        ([⟨"t1", "f1", none, "s1", 10⟩, ⟨"t1", "f1", some "s1", "s2", 20⟩]
          ++ [⟨"t1", "f1", some "s2", "s1", 30⟩, ⟨"t1", "f1", some "s1", "s2", 40⟩])
        "t1"
      = completedAtOf ⟨[("s1", "g1"), ("s2", "g2")], [("g1", "To Do"), ("g2", "Done")]⟩
        [⟨"t1", "f1", none, "s1", 10⟩, ⟨"t1", "f1", some "s1", "s2", 20⟩] "t1" :=
  (C6_completedAt_stable
    ⟨[("s1", "g1"), ("s2", "g2")], [("g1", "To Do"), ("g2", "Done")]⟩
    [⟨"t1", "f1", none, "s1", 10⟩, ⟨"t1", "f1", some "s1", "s2", 20⟩]
    [⟨"t1", "f1", some "s2", "s1", 30⟩, ⟨"t1", "f1", some "s1", "s2", 40⟩]
    "t1" (by decide) (by decide)).2

/-- C7: updateMatterField rejects an unrecognized field type with no
write issued and the store untouched; any error leaves the store
untouched (rollback); and a successful run issues exactly the
conditional transition insert, the value upsert and the timestamp bump,
with the final store equal to their atomic application. -/
theorem C7_update_transaction (fail : Nat → Bool) (st : Store)
    (matterId fieldId fieldType : String) (value : JsVal) (userId now : Int) :
    (fieldType ∉ recognizedFieldTypes →
      (updateMatterField fail st matterId fieldId fieldType value userId now).error.isSome ∧
        (updateMatterField fail st matterId fieldId fieldType value userId now).writes = [] ∧
        (updateMatterField fail st matterId fieldId fieldType value userId now).store = st) ∧
      ((updateMatterField fail st matterId fieldId fieldType value userId now).error.isSome →
        (updateMatterField fail st matterId fieldId fieldType value userId now).store = st) ∧
      ((updateMatterField fail st matterId fieldId fieldType value userId now).error = none →
        (updateMatterField fail st matterId fieldId fieldType value userId now).writes
          = (if fieldType == "status" then
              (match st.values.find? (fun r =>
                  r.ticketId == matterId && r.ticketFieldId == fieldId) with
               | some row => [.insertTransition ⟨matterId, fieldId, row.statusRef,
                   (match value with | .str s => s | _ => ""), now⟩]
               | none => [])
             else [])
            ++ [.upsertValue matterId fieldId fieldType value userId,
                .bumpUpdatedAt matterId now] ∧
          (updateMatterField fail st matterId fieldId fieldType value userId now).store
            = (updateMatterField fail st matterId fieldId fieldType value userId now).writes.foldl
                applyWrite st) := by
  unfold updateMatterField
  repeat' split
  all_goals try simp_all [applyWrite]
  all_goals try split_ifs
  all_goals try simp_all [applyWrite]

/-- C7 (witness): an unsupported field type is rejected with nothing
written. -/
theorem C7_witness :
    (updateMatterField (fun _ => false) ⟨[], [], [], [], [], [], [], []⟩
        "m1" "f1" "banana" .null 1 5).error.isSome ∧
      (updateMatterField (fun _ => false) ⟨[], [], [], [], [], [], [], []⟩
        "m1" "f1" "banana" .null 1 5).writes = [] := by
  have h := (C7_update_transaction (fun _ => false) ⟨[], [], [], [], [], [], [], []⟩
    "m1" "f1" "banana" .null 1 5).1 (by decide)
  exact ⟨h.1, h.2.1⟩

/-- C8 (counterexample): the sort key "Nonexistent" is neither built-in
nor resolvable in an empty catalog, yet the request is rejected by
validation with "Invalid sort field" rather than degrading
gracefully. -/
theorem C8_counterexample :
    parseSortBy (some "Nonexistent") = .error "Invalid sort field" ∧
      "Nonexistent" ∉ ["created_at", "updated_at", "Resolution Time", "SLA"] ∧
      ([] : List (String × FieldInfo)).lookup "Nonexistent" = none :=
  ⟨rfl, by decide, rfl⟩

/-- C8 (amended): a sort key outside the SORTABLE_FIELDS whitelist is
rejected by request validation as a validation error; a whitelisted
non-built-in key that fails Field Catalog resolution passes validation
and degrades to ordering by creation timestamp in the requested
direction, with no warning logged on that path. -/
theorem C8_fallback_amended (catalog : List (String × FieldInfo)) (sortBy : String)
    (dir : Dir)
    (hmem : sortBy ∈ SORTABLE_FIELDS)
    (hnb : sortBy ∉ ["created_at", "updated_at", "Resolution Time", "SLA"])
    (hlook : catalog.lookup sortBy = none) :
    parseSortBy (some sortBy) = .ok sortBy ∧
      buildOrderByClause catalog sortBy dir = ([⟨.createdAt, dir, false⟩], []) := by
  simp only [List.mem_cons, List.not_mem_nil] at hnb
  push_neg at hnb
  obtain ⟨h1, h2, h3, h4, _⟩ := hnb
  constructor
  · simp [parseSortBy, List.elem_iff, hmem]
  · simp [buildOrderByClause, h1, h2, h3, h4, hlook]

/-- C8 (witness): the whitelisted key subject against an empty
catalog. -/
theorem C8_witness :
    parseSortBy (some "subject") = .ok "subject" ∧
      buildOrderByClause [] "subject" Dir.asc = ([⟨.createdAt, .asc, false⟩], []) :=
  C8_fallback_amended [] "subject" .asc (by decide) (by decide) rfl

/-- C9: a search term that is empty or whitespace-only yields the empty
condition, so the count and the matching id set coincide with those of
a query carrying no search term at all. -/
theorem C9_blank_search (st : Store) (thr : Int) (s : String) (h : jsTrim s = "") :
    buildSearchCondition (some s) = buildSearchCondition none ∧
      countMatters st thr (some s) = countMatters st thr none ∧
      matchingIds st thr (some s) = matchingIds st thr none := by
  have hc : buildSearchCondition (some s) = none := by
    simp [buildSearchCondition, h]
  refine ⟨hc, ?_, ?_⟩ <;>
    simp [countMatters, matchingIds, buildSearchCondition, h]

/-- C9 (witness): a three-space search term over a one-ticket store. -/
theorem C9_witness :
    countMatters ⟨[⟨"t1", "b1", 0, 0⟩], [], [], [], [], [], [], []⟩ 0 (some "   ")
      = countMatters ⟨[⟨"t1", "b1", 0, 0⟩], [], [], [], [], [], [], []⟩ 0 none :=
  (C9_blank_search ⟨[⟨"t1", "b1", 0, 0⟩], [], [], [], [], [], [], []⟩ 0 "   "
    (by decide)).2.1

/-- C10: a matter that exists with zero field-value rows makes the
detail fetch fail — the batch map lacks its key, the repository passes
the undefined lookup through, and the service read of fields["Status"]
raises — while the list path substitutes an empty field map for the
same matter. -/
theorem C10_detail_crash :
    (repoGetMatterById ⟨[⟨"t1", "b1", 0, 0⟩], [], [], [], [], [], [], []⟩ "t1").isSome ∧
      serviceGetMatterById ⟨[⟨"t1", "b1", 0, 0⟩], [], [], [], [], [], [], []⟩
          28800000 1000 "t1"
        = .error "TypeError: cannot read properties of undefined" ∧
      listFieldsFor ⟨[⟨"t1", "b1", 0, 0⟩], [], [], [], [], [], [], []⟩ ["t1"] "t1" = [] :=
  ⟨rfl, rfl, rfl⟩

end Matter
